import Mathlib

/-!
Verification development for the teeny-orchestrator repository.

The Go sources are shallowly embedded as executable Lean definitions:

* `JVal` and `parseJson` model Go `encoding/json` values and `json.Unmarshal`
  into `any` (objects as association lists; a Go `nil` interface is `JVal.null`;
  numbers keep their lexeme since no verified property depends on numeric
  formatting).
* `buildCommandArgs` and `registryExecute` embed `pkg/toolreg` (the subprocess
  is an oracle parameter, as are Go map iteration orders, which are fixed to
  the association-list order).
* `anthropicChat` and `openaiChat` embed the two provider adapters with the
  HTTP transport as an oracle parameter returning status, raw body text, and
  the decoded body (`none` models an unmarshal failure).
* `loopIterate` / `loopGo` / `runLoop` embed `AgentLoop.Run` from
  `pkg/loop/loop.go`, with the provider, tool executor, context builder
  output and prior session content as parameters; the best-effort capture
  side effect has no influence on control flow and is not modelled.
-/

/-- A decoded JSON value, as produced by Go `json.Unmarshal` into `any`.
`null` doubles as the Go `nil` interface value.  Objects are association
lists in parse order with later duplicate keys winning, mirroring the Go map. -/
inductive JVal where
  | null : JVal
  | boolean : Bool → JVal
  | num : String → JVal
  | str : String → JVal
  | arr : List JVal → JVal
  | obj : List (String × JVal) → JVal
deriving Repr, Inhabited

def skipWs : List Char → List Char
  | c :: cs => if c = ' ' ∨ c = '\t' ∨ c = '\n' ∨ c = '\r' then skipWs cs else c :: cs
  | [] => []

def hexVal (c : Char) : Option Nat :=
  if '0' ≤ c ∧ c ≤ '9' then some (c.toNat - '0'.toNat)
  else if 'a' ≤ c ∧ c ≤ 'f' then some (c.toNat - 'a'.toNat + 10)
  else if 'A' ≤ c ∧ c ≤ 'F' then some (c.toNat - 'A'.toNat + 10)
  else none

/-- Parse the body of a JSON string after the opening quote, handling the
escape sequences Go accepts (surrogate pairs are not recombined; no claim
depends on them).  Go rejects raw control characters and unknown escapes. -/
def parseStrChars : List Char → List Char → Option (String × List Char)
  | acc, '"' :: rest => some (String.mk acc.reverse, rest)
  | acc, '\\' :: e :: rest =>
    match e with
    | '"' => parseStrChars ('"' :: acc) rest
    | '\\' => parseStrChars ('\\' :: acc) rest
    | '/' => parseStrChars ('/' :: acc) rest
    | 'n' => parseStrChars ('\n' :: acc) rest
    | 't' => parseStrChars ('\t' :: acc) rest
    | 'r' => parseStrChars ('\r' :: acc) rest
    | 'b' => parseStrChars (Char.ofNat 8 :: acc) rest
    | 'f' => parseStrChars (Char.ofNat 12 :: acc) rest
    | 'u' =>
      match rest with
      | a :: b :: c :: d :: rest2 =>
        match hexVal a, hexVal b, hexVal c, hexVal d with
        | some ha, some hb, some hc, some hd =>
          parseStrChars (Char.ofNat (((ha * 16 + hb) * 16 + hc) * 16 + hd) :: acc) rest2
        | _, _, _, _ => none
      | _ => none
    | _ => none
  | acc, c :: rest => if c.toNat < 32 then none else parseStrChars (c :: acc) rest
  | _, [] => none

/-- Parse a JSON number, keeping its lexeme.  Matches Go's grammar:
`-? (0 | [1-9][0-9]*) (. [0-9]+)? ([eE][+-]?[0-9]+)?`. -/
def parseNumberChars (cs : List Char) : Option (String × List Char) :=
  let signAndRest : List Char × List Char :=
    match cs with
    | '-' :: r => (['-'], r)
    | _ => ([], cs)
  let sign := signAndRest.1
  let cs1 := signAndRest.2
  let intAndRest : Option (List Char × List Char) :=
    match cs1 with
    | '0' :: r => some (['0'], r)
    | c :: _ =>
      if c.isDigit then
        let p := cs1.span Char.isDigit
        some (p.1, p.2)
      else none
    | [] => none
  match intAndRest with
  | none => none
  | some (intPart, rest1) =>
    let fracAndRest : Option (List Char × List Char) :=
      match rest1 with
      | '.' :: r =>
        let p := r.span Char.isDigit
        if p.1 = [] then none else some ('.' :: p.1, p.2)
      | _ => some ([], rest1)
    match fracAndRest with
    | none => none
    | some (fracPart, rest2) =>
      let expAndRest : Option (List Char × List Char) :=
        match rest2 with
        | e :: r =>
          if e = 'e' ∨ e = 'E' then
            let signedR : List Char × List Char :=
              match r with
              | s :: r2 => if s = '+' ∨ s = '-' then ([s], r2) else ([], r)
              | [] => ([], r)
            let p := signedR.2.span Char.isDigit
            if p.1 = [] then none else some (e :: (signedR.1 ++ p.1), p.2)
          else some ([], rest2)
        | [] => some ([], rest2)
      match expAndRest with
      | none => none
      | some (expPart, rest3) =>
        some (String.mk (sign ++ intPart ++ fracPart ++ expPart), rest3)

/-- Insert a parsed object member; a later duplicate key wins, matching the
Go map assignment done by `json.Unmarshal`. -/
def objInsert (key : String) (v : JVal) (kvs : List (String × JVal)) :
    List (String × JVal) :=
  if kvs.any (fun kv => kv.1 = key) then kvs else (key, v) :: kvs

mutual

/-- Fuel-indexed recursive-descent parser for one JSON value. -/
def parseJVal : Nat → List Char → Option (JVal × List Char)
  | 0, _ => none
  | fuel + 1, cs =>
    match skipWs cs with
    | 'n' :: 'u' :: 'l' :: 'l' :: rest => some (JVal.null, rest)
    | 't' :: 'r' :: 'u' :: 'e' :: rest => some (JVal.boolean true, rest)
    | 'f' :: 'a' :: 'l' :: 's' :: 'e' :: rest => some (JVal.boolean false, rest)
    | '"' :: rest =>
      match parseStrChars [] rest with
      | some (s, rest2) => some (JVal.str s, rest2)
      | none => none
    | '[' :: rest =>
      match parseArrTail fuel true rest with
      | some (xs, rest2) => some (JVal.arr xs, rest2)
      | none => none
    | '\x7b' :: rest =>
      match parseObjTail fuel true rest with
      | some (kvs, rest2) => some (JVal.obj kvs, rest2)
      | none => none
    | c :: rest =>
      if c = '-' ∨ c.isDigit then
        match parseNumberChars (c :: rest) with
        | some (lex, rest2) => some (JVal.num lex, rest2)
        | none => none
      else none
    | [] => none

/-- Parse array elements after `[`.  `first` is true before any element was
seen; Go rejects trailing commas. -/
def parseArrTail : Nat → Bool → List Char → Option (List JVal × List Char)
  | 0, _, _ => none
  | fuel + 1, first, cs =>
    match first, skipWs cs with
    | true, ']' :: rest => some ([], rest)
    | _, cs1 =>
      match parseJVal fuel cs1 with
      | none => none
      | some (v, rest) =>
        match skipWs rest with
        | ',' :: rest2 =>
          match parseArrTail fuel false rest2 with
          | some (xs, rest3) => some (v :: xs, rest3)
          | none => none
        | ']' :: rest2 => some ([v], rest2)
        | _ => none

/-- Parse object members after the opening brace; Go rejects trailing commas. -/
def parseObjTail : Nat → Bool → List Char →
    Option (List (String × JVal) × List Char)
  | 0, _, _ => none
  | fuel + 1, first, cs =>
    match first, skipWs cs with
    | true, '\x7d' :: rest => some ([], rest)
    | _, '"' :: rest =>
      match parseStrChars [] rest with
      | none => none
      | some (key, rest2) =>
        match skipWs rest2 with
        | ':' :: rest3 =>
          match parseJVal fuel rest3 with
          | none => none
          | some (v, rest4) =>
            match skipWs rest4 with
            | ',' :: rest5 =>
              match parseObjTail fuel false rest5 with
              | some (kvs, rest6) => some (objInsert key v kvs, rest6)
              | none => none
            | '\x7d' :: rest5 => some ([(key, v)], rest5)
            | _ => none
        | _ => none
    | _, _ => none

end

/-- Go `json.Unmarshal(data, &v)` for `v : any`: one JSON value followed by
nothing but whitespace; `none` models the error return. -/
def parseJson (s : String) : Option JVal :=
  match parseJVal (2 * s.length + 4) s.toList with
  | some (v, rest) => if skipWs rest = [] then some v else none
  | none => none

/-- Byte-wise lexicographic string order, as Go compares strings (restricted
to scalar-value comparison, which agrees on the ASCII keys that occur here). -/
def charListLt : List Char → List Char → Bool
  | [], [] => false
  | [], _ :: _ => true
  | _ :: _, [] => false
  | a :: as, b :: bs =>
    if a.toNat < b.toNat then true
    else if b.toNat < a.toNat then false
    else charListLt as bs

def strLt (a b : String) : Bool := charListLt a.toList b.toList

/-- Insertion into a key-sorted list of already formatted members, ascending
by key — Go's `fmt` package prints map keys in sorted order. -/
def insertSortedKV (kv : String × String) : List (String × String) → List (String × String)
  | [] => [kv]
  | x :: xs => if strLt x.1 kv.1 then x :: insertSortedKV kv xs else kv :: x :: xs

def sortKVs (l : List (String × String)) : List (String × String) :=
  l.foldr insertSortedKV []

mutual

/-- Go `fmt.Sprintf("%v", val)` for a JSON-decoded `any` value: strings print
bare, booleans and `nil` print as `true`/`false`/`<nil>`, slices as `[a b]`,
maps as `map[k:v]` with sorted keys.  Numbers print their lexeme (an
approximation of float64 formatting; no claim exercises numeric arguments). -/
def jvalFmt : JVal → String
  | JVal.null => "<nil>"
  | JVal.boolean b => if b then "true" else "false"
  | JVal.num lex => lex
  | JVal.str s => s
  | JVal.arr xs => "[" ++ String.intercalate " " (jvalFmtList xs) ++ "]"
  | JVal.obj kvs =>
    "map[" ++ String.intercalate " "
      ((sortKVs (jvalFmtKVs kvs)).map (fun kv => kv.1 ++ ":" ++ kv.2)) ++ "]"

def jvalFmtList : List JVal → List String
  | [] => []
  | x :: xs => jvalFmt x :: jvalFmtList xs

def jvalFmtKVs : List (String × JVal) → List (String × String)
  | [] => []
  | (k, v) :: xs => (k, jvalFmt v) :: jvalFmtKVs xs

end

/-- String escaping done by Go `json.Marshal` (with its default HTML escaping
of angle brackets and ampersands). -/
def escapeJsonChar (c : Char) : String :=
  if c = '"' then "\\\""
  else if c = '\\' then "\\\\"
  else if c = '\n' then "\\n"
  else if c = '\r' then "\\r"
  else if c = '\t' then "\\t"
  else if c = '<' then "\\u003c"
  else if c = '>' then "\\u003e"
  else if c = '&' then "\\u0026"
  else if c.toNat < 32 then
    let hx := fun (n : Nat) => String.mk [(Nat.digitChar n)]
    "\\u00" ++ hx (c.toNat / 16) ++ hx (c.toNat % 16)
  else String.mk [c]

def escapeJson (s : String) : String :=
  String.join (s.toList.map escapeJsonChar)

mutual

/-- Go `json.Marshal` of a JSON-decoded `any` value; map keys are emitted in
sorted order, as Go does.  Number lexemes are re-emitted verbatim. -/
def renderJson : JVal → String
  | JVal.null => "null"
  | JVal.boolean b => if b then "true" else "false"
  | JVal.num lex => lex
  | JVal.str s => "\"" ++ escapeJson s ++ "\""
  | JVal.arr xs => "[" ++ String.intercalate "," (renderJsonList xs) ++ "]"
  | JVal.obj kvs =>
    "\x7b" ++ String.intercalate ","
      ((sortKVs (renderJsonKVs kvs)).map
        (fun kv => "\"" ++ escapeJson kv.1 ++ "\":" ++ kv.2)) ++ "\x7d"

def renderJsonList : List JVal → List String
  | [] => []
  | x :: xs => renderJson x :: renderJsonList xs

def renderJsonKVs : List (String × JVal) → List (String × String)
  | [] => []
  | (k, v) :: xs => (k, renderJson v) :: renderJsonKVs xs

end

/-! ## Canonical message model (`pkg/provider/provider.go`) -/

/-- `provider.ToolCall`: a model-issued request to invoke one named external
action, with arguments as JSON text. -/
structure ToolCall where
  id : String
  name : String
  arguments : String
deriving Repr, DecidableEq, Inhabited

/-- `provider.Message`: one canonical conversation turn. -/
structure Message where
  role : String
  content : String
  toolCalls : List ToolCall
  toolCallID : String
deriving Repr, DecidableEq, Inhabited

/-- `provider.ToolDef`: a tool advertised to the model; `parameters` is the
JSON-schema object produced by the registry. -/
structure ToolDef where
  name : String
  description : String
  parameters : JVal
deriving Repr, Inhabited

/-- `provider.Usage`. -/
structure Usage where
  promptTokens : Nat
  completionTokens : Nat
deriving Repr, DecidableEq, Inhabited

/-- `provider.ChatRequest`. -/
structure ChatRequest where
  model : String
  messages : List Message
  tools : List ToolDef
  maxTokens : Nat
deriving Repr, Inhabited

/-- `provider.ChatResponse`. -/
structure ChatResponse where
  content : String
  toolCalls : List ToolCall
  usage : Usage
deriving Repr, DecidableEq, Inhabited

/-! ## Tool registry (`pkg/toolreg/toolreg.go`) -/

/-- `toolreg.ParameterDef`. -/
structure ParameterDef where
  jsonType : String
  description : String
  required : Bool
  dflt : Option JVal
deriving Repr, Inhabited

/-- `toolreg.CommandDef`: one command of a tool manifest.  `args` is the
argument template, empty for flag mode. -/
structure CommandDef where
  description : String := ""
  args : String := ""
  stdin : Bool := false
  stdinParam : String := ""
  parameters : List (String × ParameterDef) := []
deriving Repr, Inhabited

/-- `toolreg.ToolManifest`. -/
structure ToolManifest where
  name : String
  binary : String
  description : String := ""
  commands : List (String × CommandDef)
deriving Repr, Inhabited

/-- If `p` is a leading segment of the second list, return the remainder. -/
def stripPfx : List Char → List Char → Option (List Char)
  | [], rest => some rest
  | p :: ps, c :: cs => if c = p then stripPfx ps cs else none
  | _ :: _, [] => none

/-- Worker for `replaceAll`; the fuel is the input length, ample because every
step consumes at least one character when the pattern is non-empty. -/
def replChars (pat rep : List Char) : Nat → List Char → List Char
  | 0, cs => cs
  | _, [] => []
  | fuel + 1, c :: cs =>
    match stripPfx pat (c :: cs) with
    | some rest => rep ++ replChars pat rep fuel rest
    | none => c :: replChars pat rep fuel cs

/-- Go `strings.ReplaceAll`: replace non-overlapping occurrences left to
right.  An empty pattern (where Go would interleave) never occurs here
because the call sites use `\x7bkey\x7d` patterns; it is left as identity. -/
def replaceAll (s pat rep : String) : String :=
  if pat.toList = [] then s
  else String.mk (replChars pat.toList rep.toList s.toList.length s.toList)

def isWsChar (c : Char) : Bool := c = ' ' ∨ c = '\t' ∨ c = '\n' ∨ c = '\r'

def fieldsChars : List Char → List Char → List String
  | acc, [] => if acc = [] then [] else [String.mk acc.reverse]
  | acc, c :: cs =>
    if isWsChar c then
      if acc = [] then fieldsChars [] cs
      else String.mk acc.reverse :: fieldsChars [] cs
    else fieldsChars (c :: acc) cs

/-- Go `strings.Fields`: split around runs of whitespace, dropping empties
(ASCII whitespace; the exotic Unicode spaces Go also strips never occur in
the manifests at issue). -/
def fields (s : String) : List String := fieldsChars [] s.toList

/-- Go `strings.Contains(s, string(c))` for a single-character needle. -/
def containsChar (s : String) (c : Char) : Bool := s.toList.any (fun x => x = c)

/-- `toolreg.buildCommandArgs` (toolreg.go:320-351).  The argument map's
iteration order, unspecified in Go, is fixed to the association-list order.
Template mode replaces each `\x7bparam\x7d` with the argument's `%v` form,
splits on whitespace and drops any token still containing `\x7b`; flag mode
emits `--key value` for each argument not designated as the stdin parameter. -/
def buildCommandArgs (cmdDef : CommandDef) (args : List (String × JVal))
    (cmdName : String) : List String :=
  if cmdDef.args ≠ "" then
    let expanded := args.foldl
      (fun acc kv => replaceAll acc ("\x7b" ++ kv.1 ++ "\x7d") (jvalFmt kv.2)) cmdDef.args
    cmdName :: (fields expanded).filter (fun part => ¬ containsChar part '\x7b')
  else
    let stdinParam := if cmdDef.stdinParam = "" then "content" else cmdDef.stdinParam
    cmdName :: (args.filter (fun kv => ¬ (cmdDef.stdin ∧ kv.1 = stdinParam))).flatMap
      (fun kv => ["--" ++ kv.1, jvalFmt kv.2])

/-- Split a tool-call name at the first dot, as `strings.SplitN(name, ".", 2)`
does; `none` corresponds to the one-part result that `Execute` rejects. -/
def splitFirstDot : List Char → Option (List Char × List Char)
  | [] => none
  | '.' :: rest => some ([], rest)
  | c :: rest => (splitFirstDot rest).map (fun p => (c :: p.1, p.2))

/-- Outcome of `exec.Cmd.Run` with captured stderr: `failure` carries the Go
error text (subprocess failure, non-zero exit, or the timeout/cancellation
error from the command context) and the captured stderr. -/
inductive ProcOutcome where
  | success : String → ProcOutcome
  | failure : String → String → ProcOutcome
deriving Repr, DecidableEq, Inhabited

/-- Go `json.Unmarshal(arguments, &args)` for `args : map[string]any`: a JSON
object yields its members, a JSON `null` leaves the map nil (no error), and
every other document is an error. -/
def parseArgsObj (s : String) : Option (List (String × JVal)) :=
  match parseJson s with
  | some (JVal.obj kvs) => some kvs
  | some JVal.null => some []
  | _ => none

/-- `Registry.Execute` (toolreg.go:261-318) up to the subprocess boundary:
`runProc binary argv stdin` is the oracle for the subprocess run, where
`stdin` is the piped value when the command designates a stdin parameter. -/
def registryExecute (tools : List (String × ToolManifest))
    (runProc : String → List String → Option String → ProcOutcome)
    (tc : ToolCall) : Except String String :=
  match splitFirstDot tc.name.toList with
  | none => Except.error ("invalid tool name: " ++ tc.name ++ " (expected tool.command)")
  | some (tn, cn) =>
    let toolName := String.mk tn
    let cmdName := String.mk cn
    match List.lookup toolName tools with
    | none => Except.error ("unknown tool: " ++ toolName)
    | some tool =>
      match List.lookup cmdName tool.commands with
      | none => Except.error ("unknown command: " ++ toolName ++ "." ++ cmdName)
      | some cmdDef =>
        match parseArgsObj tc.arguments with
        | none => Except.error "parse tool arguments: invalid JSON"
        | some args =>
          let cmdArgs := buildCommandArgs cmdDef args cmdName
          let stdinVal : Option String :=
            if cmdDef.stdin then
              let sp := if cmdDef.stdinParam = "" then "content" else cmdDef.stdinParam
              (List.lookup sp args).map jvalFmt
            else none
          match runProc tool.binary cmdArgs stdinVal with
          | ProcOutcome.success out => Except.ok out
          | ProcOutcome.failure errMsg stderr =>
            let m := if stderr = "" then errMsg else stderr
            Except.error (toolName ++ "." ++ cmdName ++ " failed: " ++ m)

/-! ## Provider adapters (`pkg/provider/anthropic.go`, `pkg/provider/openai.go`) -/

/-- Outcome of one HTTP round trip, abstracting `http.DefaultClient.Do` plus
body read and `json.Unmarshal`: `failure` is a transport error; `success`
carries the status code, the raw body text (used in HTTP-error messages) and
the decoded body, `none` standing for an unmarshal failure. -/
inductive HttpOutcome (ρ : Type) where
  | failure : String → HttpOutcome ρ
  | success : Nat → String → Option ρ → HttpOutcome ρ
deriving Inhabited

/-- `anthropic.go` `contentBlock`: one wire content block (unused fields keep
their Go zero values: empty strings and a nil — `JVal.null` — input). -/
structure ContentBlock where
  typ : String
  text : String := ""
  id : String := ""
  name : String := ""
  input : JVal := JVal.null
  toolUseID : String := ""
  content : String := ""
deriving Repr, Inhabited

/-- `anthropicMessage.Content` is `any`: either a plain string or a block list. -/
inductive AnthropicContent where
  | text : String → AnthropicContent
  | blocks : List ContentBlock → AnthropicContent
deriving Repr, Inhabited

structure AnthropicMessage where
  role : String
  content : AnthropicContent
deriving Repr, Inhabited

structure AnthropicTool where
  name : String
  description : String
  inputSchema : JVal
deriving Repr, Inhabited

/-- `anthropicRequest`: the serialized wire request body. -/
structure AnthropicRequest where
  model : String
  maxTokens : Nat
  system : String
  messages : List AnthropicMessage
  tools : List AnthropicTool
deriving Repr, Inhabited

/-- `anthropicResponse`: the decoded wire response.  `error` carries
`(type, message)`. -/
structure AnthropicResponse where
  content : List ContentBlock
  inputTokens : Nat := 0
  outputTokens : Nat := 0
  stopReason : String := ""
  error : Option (String × String) := none
  typ : String := ""
deriving Repr, Inhabited

/-- The tool-use block built for one ToolCall (anthropic.go:112-121): the
arguments text is re-parsed by `json.Unmarshal` with the error discarded, so
invalid JSON leaves the Go `input` interface nil, modelled as `JVal.null`. -/
def anthropicToolUseBlock (tc : ToolCall) : ContentBlock :=
  { typ := "tool_use", id := tc.id, name := tc.name,
    input := (parseJson tc.arguments).getD JVal.null }

/-- Message conversion in `Anthropic.Chat` (anthropic.go:95-137): extract the
system prompt (last system message wins), expand assistant tool calls into
content blocks, wrap tool results as user-role `tool_result` blocks, and drop
messages with unknown roles (the Go switch has no default). -/
def toAnthropicMessages (ms : List Message) : String × List AnthropicMessage :=
  ms.foldl
    (fun acc m =>
      if m.role = "system" then (m.content, acc.2)
      else if m.role = "user" then
        (acc.1, acc.2 ++ [⟨"user", AnthropicContent.text m.content⟩])
      else if m.role = "assistant" then
        if m.toolCalls.isEmpty then
          (acc.1, acc.2 ++ [⟨"assistant", AnthropicContent.text m.content⟩])
        else
          let blocks :=
            (if m.content ≠ "" then [{ typ := "text", text := m.content : ContentBlock }] else [])
              ++ m.toolCalls.map anthropicToolUseBlock
          (acc.1, acc.2 ++ [⟨"assistant", AnthropicContent.blocks blocks⟩])
      else if m.role = "tool" then
        (acc.1, acc.2 ++ [⟨"user", AnthropicContent.blocks
          [{ typ := "tool_result", toolUseID := m.toolCallID, content := m.content }]⟩])
      else acc)
    ("", [])

/-- Response-block parsing in `Anthropic.Chat` (anthropic.go:194-214): text
blocks concatenate in order into `content`; each tool-use block becomes a
ToolCall with its input re-marshalled to JSON text. -/
def parseAnthropicResponse (r : AnthropicResponse) : ChatResponse :=
  r.content.foldl
    (fun acc block =>
      if block.typ = "text" then { acc with content := acc.content ++ block.text }
      else if block.typ = "tool_use" then
        { acc with toolCalls :=
            acc.toolCalls ++ [⟨block.id, block.name, renderJson block.input⟩] }
      else acc)
    { content := "", toolCalls := [], usage := ⟨r.inputTokens, r.outputTokens⟩ }

/-- `Anthropic.Chat` (anthropic.go:81-217).  The second component counts HTTP
round trips actually performed. -/
def anthropicChat (apiKey model : String)
    (transport : AnthropicRequest → HttpOutcome AnthropicResponse)
    (req : ChatRequest) : Except String ChatResponse × Nat :=
  if apiKey = "" then (Except.error "anthropic: ANTHROPIC_API_KEY not set", 0)
  else
    let model1 := if req.model = "" then model else req.model
    let maxTokens := if req.maxTokens = 0 then 4096 else req.maxTokens
    let sm := toAnthropicMessages req.messages
    let tools := req.tools.map (fun t => AnthropicTool.mk t.name t.description t.parameters)
    match transport ⟨model1, maxTokens, sm.1, sm.2, tools⟩ with
    | HttpOutcome.failure e => (Except.error ("anthropic: request failed: " ++ e), 1)
    | HttpOutcome.success status raw body =>
      if status ≠ 200 then
        (Except.error ("anthropic: HTTP " ++ toString status ++ ": " ++ raw), 1)
      else
        match body with
        | none => (Except.error "anthropic: unmarshal response: invalid JSON", 1)
        | some apiResp =>
          if apiResp.typ = "error" ∧ apiResp.error.isSome then
            match apiResp.error with
            | some (t, msg) =>
              (Except.error ("anthropic: API error: " ++ t ++ ": " ++ msg), 1)
            | none => (Except.ok (parseAnthropicResponse apiResp), 1)
          else (Except.ok (parseAnthropicResponse apiResp), 1)

/-- `openai.go` `openaiToolCall`, with the nested `function` object flattened
into `fnName`/`fnArguments`. -/
structure OpenAIToolCall where
  id : String
  typ : String
  fnName : String
  fnArguments : String
deriving Repr, DecidableEq, Inhabited

structure OpenAIMessage where
  role : String
  content : String := ""
  toolCalls : List OpenAIToolCall := []
  toolCallID : String := ""
deriving Repr, Inhabited

/-- `openaiTool`, with the nested `function` object flattened. -/
structure OpenAITool where
  typ : String
  fnName : String
  fnDescription : String
  fnParameters : JVal
deriving Repr, Inhabited

structure OpenAIRequest where
  model : String
  messages : List OpenAIMessage
  tools : List OpenAITool
deriving Repr, Inhabited

/-- One entry of the wire response's `choices` list (only the nested message
fields are read by the adapter). -/
structure OpenAIChoice where
  content : String := ""
  toolCalls : List OpenAIToolCall := []
deriving Repr, Inhabited

/-- `openaiResponse`.  `error` carries `(type, message)`. -/
structure OpenAIResponse where
  choices : List OpenAIChoice
  promptTokens : Nat := 0
  completionTokens : Nat := 0
  error : Option (String × String) := none
deriving Repr, Inhabited

/-- Message conversion in `OpenAI.Chat` (openai.go:238-263): roles map 1:1,
assistant tool calls become `function` entries with arguments kept as text,
and unknown roles are dropped. -/
def toOpenAIMessages (ms : List Message) : List OpenAIMessage :=
  ms.flatMap (fun m =>
    if m.role = "system" ∨ m.role = "user" then
      [{ role := m.role, content := m.content }]
    else if m.role = "assistant" then
      [{ role := "assistant", content := m.content,
         toolCalls := m.toolCalls.map (fun tc => ⟨tc.id, "function", tc.name, tc.arguments⟩) }]
    else if m.role = "tool" then
      [{ role := "tool", content := m.content, toolCallID := m.toolCallID }]
    else [])

/-- `OpenAI.Chat` (openai.go:227-339).  The second component counts HTTP
round trips actually performed. -/
def openaiChat (apiKey model baseURL : String)
    (transport : String → OpenAIRequest → HttpOutcome OpenAIResponse)
    (req : ChatRequest) : Except String ChatResponse × Nat :=
  if apiKey = "" then (Except.error "openai: API key not set (OPENAI_API_KEY)", 0)
  else
    let model1 := if req.model = "" then model else req.model
    let apiReq : OpenAIRequest :=
      ⟨model1, toOpenAIMessages req.messages,
        req.tools.map (fun t => OpenAITool.mk "function" t.name t.description t.parameters)⟩
    match transport baseURL apiReq with
    | HttpOutcome.failure e => (Except.error ("openai: request failed: " ++ e), 1)
    | HttpOutcome.success status raw body =>
      if status ≠ 200 then
        (Except.error ("openai: HTTP " ++ toString status ++ ": " ++ raw), 1)
      else
        match body with
        | none => (Except.error "openai: unmarshal response: invalid JSON", 1)
        | some apiResp =>
          match apiResp.error with
          | some (t, msg) => (Except.error ("openai: API error: " ++ t ++ ": " ++ msg), 1)
          | none =>
            match apiResp.choices with
            | [] => (Except.ok { content := "", toolCalls := [], usage := ⟨0, 0⟩ }, 1)
            | choice :: _ =>
              (Except.ok
                { content := choice.content,
                  toolCalls := choice.toolCalls.map (fun tc => ⟨tc.id, tc.fnName, tc.fnArguments⟩),
                  usage := ⟨apiResp.promptTokens, apiResp.completionTokens⟩ }, 1)

/-! ## Orchestration loop (`pkg/loop/loop.go`, `AgentLoop.Run`) -/

/-- The assistant message appended when a response carries tool calls
(loop.go:109-113). -/
def assistantMsg (resp : ChatResponse) : Message :=
  { role := "assistant", content := resp.content, toolCalls := resp.toolCalls,
    toolCallID := "" }

/-- The user message saved to the session before the loop (loop.go:70). -/
def userMsg (s : String) : Message :=
  { role := "user", content := s, toolCalls := [], toolCallID := "" }

/-- The EXECUTING phase (loop.go:118-139): run every tool call in response
order; a failure is converted to `Error: <err>` text; each call produces
exactly one tool-role message correlated by `tool_call_id`. -/
def execCalls (execTool : ToolCall → Except String String)
    (tcs : List ToolCall) : List Message :=
  tcs.map (fun tc =>
    { role := "tool",
      content :=
        match execTool tc with
        | Except.ok result => result
        | Except.error e => "Error: " ++ e,
      toolCalls := [], toolCallID := tc.id })

/-- Result of one loop iteration up to (but not including) the
iteration-budget check. -/
inductive IterResult where
  | providerErr : String → IterResult
  | finished : String → IterResult
  | executed : ChatResponse → List Message → List Message → IterResult
deriving Repr

/-- One iteration of the tool loop (loop.go:82-139): call the provider; zero
tool calls finish the loop with the response content; otherwise the assistant
message and the tool-result messages are appended to both the in-memory
transcript and the session. -/
def loopIterate (provider : List Message → Except String ChatResponse)
    (execTool : ToolCall → Except String String)
    (messages sessionMsgs : List Message) : IterResult :=
  match provider messages with
  | Except.error e => IterResult.providerErr e
  | Except.ok resp =>
    if resp.toolCalls.isEmpty then IterResult.finished resp.content
    else
      let am := assistantMsg resp
      let tms := execCalls execTool resp.toolCalls
      IterResult.executed resp (messages ++ am :: tms) (sessionMsgs ++ am :: tms)

/-- State after the `for` loop of `Run` exits. -/
structure LoopOutcome where
  finalContent : String
  err : Option String
  messages : List Message
  sessionMsgs : List Message
  providerCalls : Nat
deriving Repr

/-- The `for i := 0; i < MaxIterations; i++` loop of `Run` (loop.go:77-148),
recursing on the remaining iteration budget (`i = maxIterations - rem`).
On the last iteration the final content is the response content, or the
`[max iterations reached]` sentinel when that is empty (loop.go:141-147). -/
def loopGo (provider : List Message → Except String ChatResponse)
    (execTool : ToolCall → Except String String) (maxIterations : Nat) :
    Nat → List Message → List Message → Nat → LoopOutcome
  | 0, messages, sessionMsgs, calls =>
    { finalContent := "", err := none, messages := messages,
      sessionMsgs := sessionMsgs, providerCalls := calls }
  | rem + 1, messages, sessionMsgs, calls =>
    match loopIterate provider execTool messages sessionMsgs with
    | IterResult.providerErr e =>
      { finalContent := "",
        err := some ("LLM call failed (iteration " ++ toString (maxIterations - rem) ++ "): " ++ e),
        messages := messages, sessionMsgs := sessionMsgs, providerCalls := calls + 1 }
    | IterResult.finished content =>
      { finalContent := content, err := none, messages := messages,
        sessionMsgs := sessionMsgs, providerCalls := calls + 1 }
    | IterResult.executed resp messages1 sessionMsgs1 =>
      if rem = 0 then
        { finalContent := if resp.content = "" then "[max iterations reached]" else resp.content,
          err := none, messages := messages1, sessionMsgs := sessionMsgs1,
          providerCalls := calls + 1 }
      else loopGo provider execTool maxIterations rem messages1 sessionMsgs1 (calls + 1)

/-- What `Run` returns and leaves behind: the final text (empty on error),
the error, the session transcript, whether `Save` was invoked, and how many
provider calls were made. -/
structure RunResult where
  output : String
  error : Option String
  sessionMsgs : List Message
  saved : Bool
  providerCalls : Nat
deriving Repr

/-- The code after the loop (loop.go:150-158): on a provider error `Run`
returns `("", err)` at once — no final assistant message, no `Save`;
otherwise an empty final content is replaced by the fallback text, the final
assistant message is appended to the session and the session is saved. -/
def finishRun (o : LoopOutcome) : RunResult :=
  match o.err with
  | some e =>
    { output := "", error := some e, sessionMsgs := o.sessionMsgs,
      saved := false, providerCalls := o.providerCalls }
  | none =>
    let final :=
      if o.finalContent = "" then "I\x27ve completed processing but have no response to give."
      else o.finalContent
    { output := final, error := none,
      sessionMsgs := o.sessionMsgs ++ [Message.mk "assistant" final [] ""],
      saved := true, providerCalls := o.providerCalls }

/-- `AgentLoop.Run` (loop.go:59-159).  `messages0` is the transcript built by
the context-builder collaborator; `sessionMsgs0` is the prior content of the
session collaborator, which receives the user message before the loop
(loop.go:70). -/
def runLoop (provider : List Message → Except String ChatResponse)
    (execTool : ToolCall → Except String String) (maxIterations : Nat)
    (messages0 sessionMsgs0 : List Message) (userMessage : String) : RunResult :=
  finishRun
    (loopGo provider execTool maxIterations maxIterations messages0
      (sessionMsgs0 ++ [userMsg userMessage]) 0)

/-! ## Helper lemmas -/

theorem execCalls_length (execTool : ToolCall → Except String String)
    (tcs : List ToolCall) : (execCalls execTool tcs).length = tcs.length := by
  simp [execCalls]

theorem execCalls_map_role_id (execTool : ToolCall → Except String String)
    (tcs : List ToolCall) :
    (execCalls execTool tcs).map (fun m => (m.role, m.toolCallID))
      = tcs.map (fun tc => ("tool", tc.id)) := by
  simp [execCalls, List.map_map]

theorem execCalls_roles (execTool : ToolCall → Except String String)
    (tcs : List ToolCall) : ∀ m ∈ execCalls execTool tcs, m.role = "tool" := by
  intro m hm
  simp only [execCalls, List.mem_map] at hm
  obtain ⟨tc, _, rfl⟩ := hm
  rfl

theorem loopIterate_executed_eq (provider : List Message → Except String ChatResponse)
    (execTool : ToolCall → Except String String)
    (msgs smsgs : List Message) (resp : ChatResponse) (msgs1 smsgs1 : List Message)
    (h : loopIterate provider execTool msgs smsgs
      = IterResult.executed resp msgs1 smsgs1) :
    msgs1 = msgs ++ assistantMsg resp :: execCalls execTool resp.toolCalls ∧
    smsgs1 = smsgs ++ assistantMsg resp :: execCalls execTool resp.toolCalls := by
  unfold loopIterate at h
  cases hp : provider msgs with
  | error e => rw [hp] at h; simp at h
  | ok r =>
    rw [hp] at h
    by_cases he : r.toolCalls.isEmpty
    · simp [he] at h
    · simp only [he, Bool.false_eq_true, if_false] at h
      obtain ⟨rfl, h1, h2⟩ := IterResult.executed.inj h
      exact ⟨h1.symm, h2.symm⟩

/-! ## Claims -/

/-- C1: for every provider response carrying N tool calls, one EXECUTING
phase appends to the transcript the assistant turn followed by exactly N
tool-role messages, the i-th appended tool-role message's `tool_call_id`
equal to the id of the i-th ToolCall of the response, in issue order. -/
theorem c1_executing_appends (provider : List Message → Except String ChatResponse)
    (execTool : ToolCall → Except String String)
    (msgs smsgs : List Message) (resp : ChatResponse) (msgs1 smsgs1 : List Message)
    (h : loopIterate provider execTool msgs smsgs
      = IterResult.executed resp msgs1 smsgs1) :
    msgs1 = msgs ++ assistantMsg resp :: execCalls execTool resp.toolCalls ∧
    (execCalls execTool resp.toolCalls).length = resp.toolCalls.length ∧
    (execCalls execTool resp.toolCalls).map (fun m => (m.role, m.toolCallID))
      = resp.toolCalls.map (fun tc => ("tool", tc.id)) :=
  ⟨(loopIterate_executed_eq provider execTool msgs smsgs resp msgs1 smsgs1 h).1,
   execCalls_length execTool resp.toolCalls,
   execCalls_map_role_id execTool resp.toolCalls⟩

def w1Resp : ChatResponse :=
  ⟨"working", [⟨"c1", "t.a", "\x7b\x7d"⟩, ⟨"c2", "t.b", "\x7b\x7d"⟩], ⟨0, 0⟩⟩

def w1Prov : List Message → Except String ChatResponse := fun _ => Except.ok w1Resp

def w1Et : ToolCall → Except String String := fun _ => Except.ok "done"

def w1Msgs : List Message :=
  [] ++ assistantMsg w1Resp :: execCalls w1Et w1Resp.toolCalls

theorem c1_executing_appends_witness :
    loopIterate w1Prov w1Et [] [] = IterResult.executed w1Resp w1Msgs w1Msgs ∧
    (w1Msgs = [] ++ assistantMsg w1Resp :: execCalls w1Et w1Resp.toolCalls ∧
     (execCalls w1Et w1Resp.toolCalls).length = w1Resp.toolCalls.length ∧
     (execCalls w1Et w1Resp.toolCalls).map (fun m => (m.role, m.toolCallID))
       = w1Resp.toolCalls.map (fun tc => ("tool", tc.id))) :=
  ⟨by rfl, c1_executing_appends w1Prov w1Et [] [] w1Resp w1Msgs w1Msgs (by rfl)⟩

/-- C2: if the first provider response contains zero tool calls, `Run`
terminates after exactly one provider call with no error, and its output is
that response's content, the defined fallback text substituted when that
content is empty. -/
theorem c2_zero_toolcalls_one_call (provider : List Message → Except String ChatResponse)
    (execTool : ToolCall → Except String String) (m : Nat)
    (msgs0 smsgs0 : List Message) (user : String) (resp : ChatResponse)
    (hm : 0 < m) (hp : provider msgs0 = Except.ok resp) (h0 : resp.toolCalls = []) :
    (runLoop provider execTool m msgs0 smsgs0 user).providerCalls = 1 ∧
    (runLoop provider execTool m msgs0 smsgs0 user).error = none ∧
    (runLoop provider execTool m msgs0 smsgs0 user).output =
      (if resp.content = ""
       then "I\x27ve completed processing but have no response to give."
       else resp.content) := by
  obtain ⟨k, rfl⟩ : ∃ k, m = k + 1 := ⟨m - 1, (Nat.succ_pred_eq_of_pos hm).symm⟩
  simp [runLoop, loopGo, loopIterate, hp, h0, finishRun]

def w2Prov : List Message → Except String ChatResponse :=
  fun _ => Except.ok ⟨"hello", [], ⟨1, 2⟩⟩

theorem c2_zero_toolcalls_one_call_witness :
    (0 < 20 ∧ w2Prov [] = Except.ok ⟨"hello", [], ⟨1, 2⟩⟩ ∧
      (⟨"hello", [], ⟨1, 2⟩⟩ : ChatResponse).toolCalls = []) ∧
    ((runLoop w2Prov w1Et 20 [] [] "hi").providerCalls = 1 ∧
     (runLoop w2Prov w1Et 20 [] [] "hi").error = none ∧
     (runLoop w2Prov w1Et 20 [] [] "hi").output =
       (if ("hello" : String) = ""
        then "I\x27ve completed processing but have no response to give."
        else "hello")) :=
  ⟨⟨by decide, rfl, rfl⟩,
   c2_zero_toolcalls_one_call w2Prov w1Et 20 [] [] "hi" ⟨"hello", [], ⟨1, 2⟩⟩
     (by decide) rfl rfl⟩

theorem loopIterate_err (provider : List Message → Except String ChatResponse)
    (execTool : ToolCall → Except String String)
    (msgs smsgs : List Message) (e : String) (hp : provider msgs = Except.error e) :
    loopIterate provider execTool msgs smsgs = IterResult.providerErr e := by
  simp [loopIterate, hp]

theorem loopIterate_ok_finished (provider : List Message → Except String ChatResponse)
    (execTool : ToolCall → Except String String)
    (msgs smsgs : List Message) (r : ChatResponse)
    (hp : provider msgs = Except.ok r) (he : r.toolCalls.isEmpty = true) :
    loopIterate provider execTool msgs smsgs = IterResult.finished r.content := by
  simp [loopIterate, hp, he]

theorem loopIterate_ok_executed (provider : List Message → Except String ChatResponse)
    (execTool : ToolCall → Except String String)
    (msgs smsgs : List Message) (r : ChatResponse)
    (hp : provider msgs = Except.ok r) (he : r.toolCalls.isEmpty = false) :
    loopIterate provider execTool msgs smsgs =
      IterResult.executed r (msgs ++ assistantMsg r :: execCalls execTool r.toolCalls)
        (smsgs ++ assistantMsg r :: execCalls execTool r.toolCalls) := by
  simp [loopIterate, hp, he]

theorem loopGo_succ_providerErr (provider : List Message → Except String ChatResponse)
    (execTool : ToolCall → Except String String) (M k : Nat)
    (msgs smsgs : List Message) (calls : Nat) (e : String)
    (h : loopIterate provider execTool msgs smsgs = IterResult.providerErr e) :
    loopGo provider execTool M (k + 1) msgs smsgs calls =
      { finalContent := "",
        err := some ("LLM call failed (iteration " ++ toString (M - k) ++ "): " ++ e),
        messages := msgs, sessionMsgs := smsgs, providerCalls := calls + 1 } := by
  simp [loopGo, h]

theorem loopGo_succ_finished (provider : List Message → Except String ChatResponse)
    (execTool : ToolCall → Except String String) (M k : Nat)
    (msgs smsgs : List Message) (calls : Nat) (content : String)
    (h : loopIterate provider execTool msgs smsgs = IterResult.finished content) :
    loopGo provider execTool M (k + 1) msgs smsgs calls =
      { finalContent := content, err := none, messages := msgs,
        sessionMsgs := smsgs, providerCalls := calls + 1 } := by
  simp [loopGo, h]

theorem loopGo_succ_executed (provider : List Message → Except String ChatResponse)
    (execTool : ToolCall → Except String String) (M k : Nat)
    (msgs smsgs : List Message) (calls : Nat) (resp : ChatResponse)
    (msgs1 smsgs1 : List Message)
    (h : loopIterate provider execTool msgs smsgs
      = IterResult.executed resp msgs1 smsgs1) :
    loopGo provider execTool M (k + 1) msgs smsgs calls =
      (if k = 0 then
        { finalContent := if resp.content = "" then "[max iterations reached]" else resp.content,
          err := none, messages := msgs1, sessionMsgs := smsgs1,
          providerCalls := calls + 1 }
       else loopGo provider execTool M k msgs1 smsgs1 (calls + 1)) := by
  simp [loopGo, h]

theorem loopGo_allToolCalls (provider : List Message → Except String ChatResponse)
    (execTool : ToolCall → Except String String) (M : Nat)
    (hp : ∀ msgs, ∃ r, provider msgs = Except.ok r ∧ r.toolCalls ≠ []) :
    ∀ rem msgs smsgs calls, 0 < rem →
      (loopGo provider execTool M rem msgs smsgs calls).err = none ∧
      (loopGo provider execTool M rem msgs smsgs calls).providerCalls = calls + rem ∧
      (loopGo provider execTool M rem msgs smsgs calls).finalContent ≠ "" := by
  intro rem
  induction rem with
  | zero => intro _ _ _ h; exact absurd h (by decide)
  | succ k ih =>
    intro msgs smsgs calls _
    obtain ⟨r, hr, ht⟩ := hp msgs
    have hne : r.toolCalls.isEmpty = false := by
      cases h : r.toolCalls with
      | nil => exact absurd h ht
      | cons a as => rfl
    rw [loopGo_succ_executed provider execTool M k msgs smsgs calls r _ _
      (loopIterate_ok_executed provider execTool msgs smsgs r hr hne)]
    cases k with
    | zero =>
      refine ⟨rfl, rfl, ?_⟩
      by_cases hc : r.content = "" <;> simp [hc]
    | succ j =>
      simp only [Nat.succ_ne_zero, if_false]
      obtain ⟨h1, h2, h3⟩ := ih _ _ (calls + 1) (Nat.succ_pos j)
      exact ⟨h1, by rw [h2]; omega, h3⟩

/-- C3: with MaxIterations = 3 and every provider response carrying at least
one tool call, `Run` performs exactly 3 provider calls, finishes without
error, and returns non-empty output. -/
theorem c3_three_iterations (provider : List Message → Except String ChatResponse)
    (execTool : ToolCall → Except String String)
    (msgs0 smsgs0 : List Message) (user : String)
    (hp : ∀ msgs, ∃ r, provider msgs = Except.ok r ∧ r.toolCalls ≠ []) :
    (runLoop provider execTool 3 msgs0 smsgs0 user).providerCalls = 3 ∧
    (runLoop provider execTool 3 msgs0 smsgs0 user).error = none ∧
    (runLoop provider execTool 3 msgs0 smsgs0 user).output ≠ "" := by
  obtain ⟨h1, h2, h3⟩ :=
    loopGo_allToolCalls provider execTool 3 hp 3 msgs0
      (smsgs0 ++ [userMsg user]) 0 (by decide)
  unfold runLoop
  unfold finishRun
  rw [h1]
  refine ⟨h2, rfl, ?_⟩
  simp only
  split
  · decide
  · exact h3

def w3Prov : List Message → Except String ChatResponse :=
  fun _ => Except.ok ⟨"", [⟨"c1", "t.a", "\x7b\x7d"⟩], ⟨0, 0⟩⟩

theorem c3_three_iterations_witness :
    (∀ msgs, ∃ r, w3Prov msgs = Except.ok r ∧ r.toolCalls ≠ []) ∧
    ((runLoop w3Prov w1Et 3 [] [] "hi").providerCalls = 3 ∧
     (runLoop w3Prov w1Et 3 [] [] "hi").error = none ∧
     (runLoop w3Prov w1Et 3 [] [] "hi").output ≠ "") :=
  ⟨fun _ => ⟨⟨"", [⟨"c1", "t.a", "\x7b\x7d"⟩], ⟨0, 0⟩⟩, rfl, by decide⟩,
   c3_three_iterations w3Prov w1Et [] [] "hi"
     (fun _ => ⟨⟨"", [⟨"c1", "t.a", "\x7b\x7d"⟩], ⟨0, 0⟩⟩, rfl, by decide⟩)⟩

theorem loopGo_ok_err_none (provider : List Message → Except String ChatResponse)
    (execTool : ToolCall → Except String String) (M : Nat)
    (hp : ∀ msgs, ∃ r, provider msgs = Except.ok r) :
    ∀ rem msgs smsgs calls,
      (loopGo provider execTool M rem msgs smsgs calls).err = none := by
  intro rem
  induction rem with
  | zero => intro _ _ _; rfl
  | succ k ih =>
    intro msgs smsgs calls
    obtain ⟨r, hr⟩ := hp msgs
    by_cases he : r.toolCalls.isEmpty
    · rw [loopGo_succ_finished provider execTool M k msgs smsgs calls r.content
        (loopIterate_ok_finished provider execTool msgs smsgs r hr he)]
    · rw [loopGo_succ_executed provider execTool M k msgs smsgs calls r _ _
        (loopIterate_ok_executed provider execTool msgs smsgs r hr
          (Bool.eq_false_iff.mpr he))]
      cases k with
      | zero => rfl
      | succ j =>
        simp only [Nat.succ_ne_zero, if_false]
        exact ih _ _ (calls + 1)

/-- C4: a failing tool call never aborts the loop: whenever the provider
keeps answering, `Run` finishes without error no matter what the tool
executor does, and a call whose execution fails contributes exactly its
correlated tool-role message carrying the error converted to text. -/
theorem c4_tool_failure_recovered (provider : List Message → Except String ChatResponse)
    (execTool : ToolCall → Except String String) (m : Nat)
    (msgs0 smsgs0 : List Message) (user : String)
    (hp : ∀ msgs, ∃ r, provider msgs = Except.ok r) :
    (runLoop provider execTool m msgs0 smsgs0 user).error = none ∧
    ∀ (tcs : List ToolCall) (i : Nat) (tc : ToolCall) (e : String),
      tcs[i]? = some tc → execTool tc = Except.error e →
      (execCalls execTool tcs)[i]? =
        some (Message.mk "tool" ("Error: " ++ e) [] tc.id) := by
  constructor
  · unfold runLoop finishRun
    rw [loopGo_ok_err_none provider execTool m hp]
  · intro tcs i tc e hget herr
    simp [execCalls, List.getElem?_map, hget, herr]

def w4Prov : List Message → Except String ChatResponse :=
  fun _ => Except.ok ⟨"done", [], ⟨0, 0⟩⟩

def w4Et : ToolCall → Except String String := fun _ => Except.error "boom"

theorem c4_tool_failure_recovered_witness :
    (∀ msgs, ∃ r, w4Prov msgs = Except.ok r) ∧
    ((runLoop w4Prov w4Et 2 [] [] "u").error = none ∧
     (execCalls w4Et [⟨"a", "t.c", "\x7b\x7d"⟩])[0]? =
       some (Message.mk "tool" ("Error: " ++ "boom") [] "a")) :=
  ⟨fun _ => ⟨⟨"done", [], ⟨0, 0⟩⟩, rfl⟩,
   (c4_tool_failure_recovered w4Prov w4Et 2 [] [] "u"
      (fun _ => ⟨⟨"done", [], ⟨0, 0⟩⟩, rfl⟩)).1,
   (c4_tool_failure_recovered w4Prov w4Et 2 [] [] "u"
      (fun _ => ⟨⟨"done", [], ⟨0, 0⟩⟩, rfl⟩)).2
     [⟨"a", "t.c", "\x7b\x7d"⟩] 0 ⟨"a", "t.c", "\x7b\x7d"⟩ "boom" rfl rfl⟩

theorem loopGo_err_session (provider : List Message → Except String ChatResponse)
    (execTool : ToolCall → Except String String) (M : Nat) :
    ∀ rem msgs smsgs calls e,
      (loopGo provider execTool M rem msgs smsgs calls).err = some e →
      ∃ suffix,
        (loopGo provider execTool M rem msgs smsgs calls).sessionMsgs
          = smsgs ++ suffix ∧
        ∀ x ∈ suffix, x.role = "assistant" ∨ x.role = "tool" := by
  intro rem
  induction rem with
  | zero => intro msgs smsgs calls e h; exact absurd h (by simp [loopGo])
  | succ k ih =>
    intro msgs smsgs calls e h
    cases hit : loopIterate provider execTool msgs smsgs with
    | providerErr e2 =>
      rw [loopGo_succ_providerErr provider execTool M k msgs smsgs calls e2 hit]
      exact ⟨[], by simp, by simp⟩
    | finished content =>
      rw [loopGo_succ_finished provider execTool M k msgs smsgs calls content hit] at h
      exact absurd h (by simp)
    | executed resp msgs1 smsgs1 =>
      rw [loopGo_succ_executed provider execTool M k msgs smsgs calls resp msgs1 smsgs1 hit] at h ⊢
      cases k with
      | zero => exact absurd h (by simp)
      | succ j =>
        simp only [Nat.succ_ne_zero, if_false] at h ⊢
        obtain ⟨suffix, hs, hroles⟩ := ih msgs1 smsgs1 (calls + 1) e h
        obtain ⟨-, rfl⟩ :=
          loopIterate_executed_eq provider execTool msgs smsgs resp msgs1 smsgs1 hit
        refine ⟨(assistantMsg resp :: execCalls execTool resp.toolCalls) ++ suffix,
          by rw [hs]; simp, ?_⟩
        intro x hx
        rcases List.mem_append.mp hx with hx1 | hx2
        · rcases List.mem_cons.mp hx1 with rfl | hx3
          · exact Or.inl rfl
          · exact Or.inr (execCalls_roles execTool resp.toolCalls x hx3)
        · exact hroles x hx2

/-- C10: when the provider's Chat call fails in any iteration, `Run` returns
that error at once with empty output, the final `Save` is never invoked, and
the session is not rolled back: the user message and every assistant- and
tool-role message appended in completed iterations remain in the session. -/
theorem c10_provider_error_no_rollback (provider : List Message → Except String ChatResponse)
    (execTool : ToolCall → Except String String) (m : Nat)
    (msgs0 smsgs0 : List Message) (user : String) (e : String)
    (h : (runLoop provider execTool m msgs0 smsgs0 user).error = some e) :
    (runLoop provider execTool m msgs0 smsgs0 user).saved = false ∧
    (runLoop provider execTool m msgs0 smsgs0 user).output = "" ∧
    ∃ suffix,
      (runLoop provider execTool m msgs0 smsgs0 user).sessionMsgs
        = (smsgs0 ++ [userMsg user]) ++ suffix ∧
      ∀ x ∈ suffix, x.role = "assistant" ∨ x.role = "tool" := by
  unfold runLoop finishRun at h ⊢
  cases ho : (loopGo provider execTool m m msgs0 (smsgs0 ++ [userMsg user]) 0).err with
  | none => rw [ho] at h; exact absurd h (by simp)
  | some e2 =>
    refine ⟨rfl, rfl, ?_⟩
    exact loopGo_err_session provider execTool m m msgs0
      (smsgs0 ++ [userMsg user]) 0 e2 ho

def w10Prov : List Message → Except String ChatResponse :=
  fun _ => Except.error "connection refused"

theorem c10_provider_error_no_rollback_witness :
    (runLoop w10Prov w1Et 5 [] [] "u").error
      = some "LLM call failed (iteration 1): connection refused" ∧
    ((runLoop w10Prov w1Et 5 [] [] "u").saved = false ∧
     (runLoop w10Prov w1Et 5 [] [] "u").output = "" ∧
     ∃ suffix,
       (runLoop w10Prov w1Et 5 [] [] "u").sessionMsgs
         = ([] ++ [userMsg "u"]) ++ suffix ∧
       ∀ x ∈ suffix, x.role = "assistant" ∨ x.role = "tool") :=
  ⟨by rfl,
   c10_provider_error_no_rollback w10Prov w1Et 5 [] [] "u"
     "LLM call failed (iteration 1): connection refused" (by rfl)⟩

/-- C5: for both provider variants and every ChatRequest, `Chat` with an
empty credential returns the credential error and performs zero HTTP round
trips, whatever the transport would do. -/
theorem c5_empty_credential_no_network :
    (∀ (model : String) (transport : AnthropicRequest → HttpOutcome AnthropicResponse)
       (req : ChatRequest),
       anthropicChat "" model transport req
         = (Except.error "anthropic: ANTHROPIC_API_KEY not set", 0)) ∧
    (∀ (model baseURL : String)
       (transport : String → OpenAIRequest → HttpOutcome OpenAIResponse)
       (req : ChatRequest),
       openaiChat "" model baseURL transport req
         = (Except.error "openai: API key not set (OPENAI_API_KEY)", 0)) :=
  ⟨fun _ _ _ => rfl, fun _ _ _ _ => rfl⟩

/-- C8: for the flat-message variant, a well-formed 200 response whose
choices list is empty yields `Ok` with empty content, no tool calls (and the
zero-value usage of the empty `ChatResponse{}` literal), not an error; and
when the list is non-empty only the first choice is read — any further
choices do not affect the result. -/
theorem c8_empty_choices (apiKey model baseURL raw : String) (req : ChatRequest)
    (body : OpenAIResponse) (hk : apiKey ≠ "") (he : body.error = none) :
    (body.choices = [] →
      openaiChat apiKey model baseURL
        (fun _ _ => HttpOutcome.success 200 raw (some body)) req
        = (Except.ok { content := "", toolCalls := [], usage := ⟨0, 0⟩ }, 1)) ∧
    (∀ (c : OpenAIChoice) (rest : List OpenAIChoice),
      openaiChat apiKey model baseURL
        (fun _ _ => HttpOutcome.success 200 raw (some { body with choices := c :: rest })) req
      = openaiChat apiKey model baseURL
          (fun _ _ => HttpOutcome.success 200 raw (some { body with choices := [c] })) req) := by
  constructor
  · intro hc
    simp [openaiChat, hk, he, hc]
  · intro c rest
    simp [openaiChat, hk, he]

def w8Body : OpenAIResponse := { choices := [] }

theorem c8_empty_choices_witness :
    (("k" : String) ≠ "" ∧ w8Body.error = none) ∧
    ((w8Body.choices = [] →
       openaiChat "k" "m" "u" (fun _ _ => HttpOutcome.success 200 "raw" (some w8Body))
         { model := "", messages := [], tools := [], maxTokens := 0 }
         = (Except.ok { content := "", toolCalls := [], usage := ⟨0, 0⟩ }, 1)) ∧
     (∀ (c : OpenAIChoice) (rest : List OpenAIChoice),
       openaiChat "k" "m" "u"
         (fun _ _ => HttpOutcome.success 200 "raw" (some { w8Body with choices := c :: rest }))
         { model := "", messages := [], tools := [], maxTokens := 0 }
       = openaiChat "k" "m" "u"
           (fun _ _ => HttpOutcome.success 200 "raw" (some { w8Body with choices := [c] }))
           { model := "", messages := [], tools := [], maxTokens := 0 })) :=
  ⟨⟨by decide, rfl⟩,
   c8_empty_choices "k" "m" "u" "raw"
     { model := "", messages := [], tools := [], maxTokens := 0 }
     w8Body (by decide) rfl⟩

/-- C9: for the content-block variant, a ToolCall whose arguments text is
not valid JSON does not make `Chat` error: its tool-use block's input
degrades to the null input, while valid JSON arguments round-trip into the
block as the parsed structured value; with a benign transport, `Chat`
succeeds for every request, including those carrying invalid argument text. -/
theorem c9_invalid_arguments_degrade :
    (∀ tc : ToolCall, parseJson tc.arguments = none →
       (anthropicToolUseBlock tc).input = JVal.null) ∧
    (∀ (tc : ToolCall) (v : JVal), parseJson tc.arguments = some v →
       (anthropicToolUseBlock tc).input = v) ∧
    (∀ (apiKey model raw : String) (body : AnthropicResponse) (req : ChatRequest),
       apiKey ≠ "" → body.typ ≠ "error" →
       (anthropicChat apiKey model
           (fun _ => HttpOutcome.success 200 raw (some body)) req).1
         = Except.ok (parseAnthropicResponse body)) := by
  refine ⟨fun tc h => ?_, fun tc v h => ?_, fun apiKey model raw body req hk ht => ?_⟩
  · simp [anthropicToolUseBlock, h]
  · simp [anthropicToolUseBlock, h]
  · simp only [anthropicChat, if_neg hk]
    have hcond : ¬ (body.typ = "error" ∧ body.error.isSome = true) := fun hc => ht hc.1
    simp [hcond]

def w9BadCall : ToolCall := ⟨"i1", "t.c", "oops"⟩

def w9GoodCall : ToolCall := ⟨"i2", "t.c", "\x7b\"a\":\"b\"\x7d"⟩

def w9Req : ChatRequest :=
  { model := "", maxTokens := 0, tools := [],
    messages := [{ role := "assistant", content := "", toolCalls := [w9BadCall],
                   toolCallID := "" }] }

theorem c9_invalid_arguments_degrade_witness :
    (parseJson w9BadCall.arguments = none ∧
     parseJson w9GoodCall.arguments = some (JVal.obj [("a", JVal.str "b")]) ∧
     ("k" : String) ≠ "" ∧ (({ content := [] } : AnthropicResponse)).typ ≠ "error") ∧
    ((anthropicToolUseBlock w9BadCall).input = JVal.null ∧
     (anthropicToolUseBlock w9GoodCall).input = JVal.obj [("a", JVal.str "b")] ∧
     (anthropicChat "k" "m"
         (fun _ => HttpOutcome.success 200 "raw" (some { content := [] })) w9Req).1
       = Except.ok (parseAnthropicResponse { content := [] })) :=
  ⟨⟨by rfl, by rfl, by decide, by decide⟩,
   c9_invalid_arguments_degrade.1 w9BadCall (by rfl),
   c9_invalid_arguments_degrade.2.1 w9GoodCall (JVal.obj [("a", JVal.str "b")]) (by rfl),
   c9_invalid_arguments_degrade.2.2 "k" "m" "raw" { content := [] } w9Req
     (by decide) (by decide)⟩

/-- C6: template-mode argv construction: template `\x7btext\x7d` with command
`run` and arguments `\x7b"text":"hi"\x7d` yields `["run","hi"]`, and with no
arguments yields `["run"]`; in general the command name leads the vector and,
after placeholder replacement and whitespace splitting, no surviving token
contains an unreplaced `\x7b...\x7d` — such tokens are dropped, not errors. -/
theorem c6_template_mode :
    parseJson "\x7b\"text\":\"hi\"\x7d" = some (JVal.obj [("text", JVal.str "hi")]) ∧
    buildCommandArgs { args := "\x7btext\x7d" } [("text", JVal.str "hi")] "run"
      = ["run", "hi"] ∧
    buildCommandArgs { args := "\x7btext\x7d" } [] "run" = ["run"] ∧
    ∀ (cd : CommandDef) (args : List (String × JVal)) (cmdName : String),
      cd.args ≠ "" →
      (buildCommandArgs cd args cmdName).head? = some cmdName ∧
      ∀ t ∈ (buildCommandArgs cd args cmdName).tail, containsChar t '\x7b' = false := by
  refine ⟨by rfl, by rfl, by rfl, fun cd args cmdName hne => ?_⟩
  simp only [buildCommandArgs, if_pos hne]
  refine ⟨rfl, fun t ht => ?_⟩
  simp only [List.tail_cons, List.mem_filter] at ht
  simpa using ht.2

theorem c6_template_mode_witness :
    (({ args := "\x7btext\x7d" } : CommandDef).args ≠ "" ∧
     parseJson "\x7b\"text\":\"hi\"\x7d" = some (JVal.obj [("text", JVal.str "hi")])) ∧
    ((buildCommandArgs { args := "\x7btext\x7d" }
        [("text", JVal.str "\x7bodd value")] "run").head? = some "run" ∧
     ∀ t ∈ (buildCommandArgs { args := "\x7btext\x7d" }
        [("text", JVal.str "\x7bodd value")] "run").tail,
       containsChar t '\x7b' = false) :=
  ⟨⟨by decide, by rfl⟩,
   (c6_template_mode.2.2.2 { args := "\x7btext\x7d" }
     [("text", JVal.str "\x7bodd value")] "run" (by decide))⟩

/-- Group a flat argument vector into consecutive `(flag, value)` pairs. -/
def pairChunks : List String → List (String × String)
  | a :: b :: rest => (a, b) :: pairChunks rest
  | _ => []

theorem pairChunks_pairs {α : Type} (f g : α → String) (l : List α) :
    pairChunks (l.flatMap (fun x => [f x, g x])) = l.map (fun x => (f x, g x)) := by
  induction l with
  | nil => rfl
  | cons x xs ih =>
    have hstep : pairChunks (f x :: g x :: (xs.flatMap fun y => [f y, g y]))
        = (f x, g x) :: pairChunks (xs.flatMap fun y => [f y, g y]) := rfl
    rw [List.flatMap_cons, List.cons_append, List.singleton_append, hstep, ih,
      List.map_cons]

/-- C7: flag-mode argv construction: command `run` with no template and
arguments `\x7b"a":"1","b":"2"\x7d` yields a vector led by `run` whose flag
pairs are exactly `("--a","1")` and `("--b","2")` as an unordered multiset;
in general every argument not designated as the stdin parameter contributes
exactly one `--key value` pair. -/
theorem c7_flag_mode :
    (buildCommandArgs {} [("a", JVal.str "1"), ("b", JVal.str "2")] "run").head?
      = some "run" ∧
    (pairChunks (buildCommandArgs {} [("a", JVal.str "1"), ("b", JVal.str "2")] "run").tail).Perm
      [("--a", "1"), ("--b", "2")] ∧
    ∀ (cd : CommandDef) (args : List (String × JVal)) (cmdName : String),
      cd.args = "" →
      (buildCommandArgs cd args cmdName).head? = some cmdName ∧
      pairChunks (buildCommandArgs cd args cmdName).tail
        = (args.filter (fun kv =>
            ¬ (cd.stdin ∧ kv.1 = (if cd.stdinParam = "" then "content" else cd.stdinParam)))).map
            (fun kv => ("--" ++ kv.1, jvalFmt kv.2)) := by
  refine ⟨by rfl, ?_, fun cd args cmdName hargs => ?_⟩
  · rw [show pairChunks (buildCommandArgs {} [("a", JVal.str "1"), ("b", JVal.str "2")] "run").tail
        = [("--a", "1"), ("--b", "2")] from rfl]
  · have hcond : ¬ cd.args ≠ "" := fun h => h hargs
    simp only [buildCommandArgs, if_neg hcond]
    exact ⟨rfl, pairChunks_pairs _ _ _⟩

theorem c7_flag_mode_witness :
    (({ stdin := true } : CommandDef).args = "") ∧
    ((buildCommandArgs { stdin := true }
        [("content", JVal.str "x"), ("k", JVal.str "v")] "run").head? = some "run" ∧
     pairChunks (buildCommandArgs { stdin := true }
        [("content", JVal.str "x"), ("k", JVal.str "v")] "run").tail
       = ([("content", JVal.str "x"), ("k", JVal.str "v")].filter (fun kv =>
           ¬ (({ stdin := true } : CommandDef).stdin ∧ kv.1 =
             (if ({ stdin := true } : CommandDef).stdinParam = "" then "content"
              else ({ stdin := true } : CommandDef).stdinParam)))).map
           (fun kv => ("--" ++ kv.1, jvalFmt kv.2))) :=
  ⟨rfl,
   c7_flag_mode.2.2 { stdin := true }
     [("content", JVal.str "x"), ("k", JVal.str "v")] "run" rfl⟩
